import Mathlib

/-!
Verification development for the services-manager terminal application.

The Rust sources embedded here:
* `src/terminal/components/filter.rs` — the filter text editor (`Filter`);
* `src/terminal/components/details.rs` — the details view (`ServiceDetails`);
* `src/terminal/terminal.rs` — the application controller (`App`);
* `src/domain/service.rs` — the `Service` data model.

Rust strings indexed by codepoints are modelled as `List Char`; `u16`
arithmetic is modelled on `Nat` with explicit `% 65536` where the Rust code
uses unchecked (wrapping) addition, and Rust `saturating_sub` is Nat
subtraction.  Components of the repository that are not among the given
sources (the list view `TableServices`, the `ServicesManager` use case, the
terminal-side details view) are modelled from the specification and marked
as such in their doc comments.
-/

/-- Key codes, from `crossterm::event::KeyCode` as used by the sources. -/
inductive KeyCode where
  | char (c : Char)
  | enter
  | backspace
  | left
  | right
  | esc
  | up
  | down
  | pageUp
  | pageDown
  | other
  deriving DecidableEq

/-- Key event kinds, from `crossterm::event::KeyEventKind`. -/
inductive KeyEventKind where
  | press
  | release
  | repeatKind
  deriving DecidableEq

/-- Key modifiers, from `crossterm::event::KeyModifiers` (only the cases the
sources inspect: CONTROL versus everything else). -/
inductive KeyModifiers where
  | noMods
  | control
  deriving DecidableEq

/-- A key event, from `crossterm::event::KeyEvent` (the fields the sources
read: `code`, `modifiers`, `kind`). -/
structure KeyEvent where
  code : KeyCode
  modifiers : KeyModifiers
  kind : KeyEventKind
  deriving DecidableEq

/-- `InputMode` from `src/terminal/components/filter.rs`. -/
inductive InputMode where
  | Normal
  | Editing
  deriving DecidableEq

/-- The mutable state of `Filter` from `src/terminal/components/filter.rs`:
`input` (codepoint list), `character_index`, `input_mode`.  The
`table_service : Option<Rc<RefCell<TableServices>>>` field is modelled
separately: its presence is the `attached : Bool` argument of
`Filter.on_key_event`, and the mutations the filter performs through it are
returned as an explicit `FilterEffect` list. -/
structure FilterState where
  input : List Char
  character_index : Nat
  input_mode : InputMode
  deriving DecidableEq

/-- Calls the filter makes on the attached `TableServices`
(`toogle_ignore_key_events` and `refresh`), returned as data. -/
inductive FilterEffect where
  | toggleIgnore (b : Bool)
  | refresh (predicate : List Char)
  deriving DecidableEq

namespace FilterState

/-- `Filter::new()`. -/
def new : FilterState := ⟨[], 0, InputMode.Normal⟩

/-- `Filter::clamp_cursor`: `new_cursor_pos.clamp(0, self.input.chars().count())`. -/
def clamp_cursor (f : FilterState) (new_cursor_pos : Nat) : Nat :=
  min new_cursor_pos f.input.length

/-- `Filter::move_cursor_left`: saturating decrement, then clamp. -/
def move_cursor_left (f : FilterState) : FilterState :=
  { f with character_index := f.clamp_cursor (f.character_index - 1) }

/-- `Filter::move_cursor_right`: saturating increment, then clamp. -/
def move_cursor_right (f : FilterState) : FilterState :=
  { f with character_index := f.clamp_cursor (f.character_index + 1) }

/-- `Filter::enter_char`: insert at `byte_index()` (the byte offset of the
`character_index`-th codepoint, or the end of the string when the cursor is
past the last codepoint), then `move_cursor_right`.  On the codepoint list
this is `take character_index ++ [c] ++ drop character_index`, whose
`take`/`drop` saturation matches the `unwrap_or(self.input.len())`
fallback of `byte_index`. -/
def enter_char (f : FilterState) (new_char : Char) : FilterState :=
  move_cursor_right
    { f with
      input := f.input.take f.character_index ++ [new_char] ++
        f.input.drop f.character_index }

/-- `Filter::delete_char`: when the cursor is not leftmost, keep the
characters before `character_index - 1` and from `character_index` on,
then `move_cursor_left` (which clamps against the shortened input). -/
def delete_char (f : FilterState) : FilterState :=
  if f.character_index ≠ 0 then
    move_cursor_left
      { f with
        input := f.input.take (f.character_index - 1) ++
          f.input.drop f.character_index }
  else f

end FilterState

/-- `Filter::on_key_event`, with `attached` standing for
`self.table_service.is_some()`.  Returns the new filter state together with
the calls made on the attached table (in call order).  Mirrors the Rust
`match`: the `Normal` arm does not inspect `key.kind`; the `Editing` arm
fires only on `KeyEventKind::Press`; `submit_message` (the `Enter` arm)
does nothing at all — including the `input_mode` assignment, which sits
inside the `if let` — when no table is attached. -/
def filterOnKey (f : FilterState) (attached : Bool) (key : KeyEvent) :
    FilterState × List FilterEffect :=
  match f.input_mode with
  | InputMode.Normal =>
    match key.code with
    | KeyCode.char c =>
      if c = 'i' then
        ({ f with input_mode := InputMode.Editing },
         if attached then [FilterEffect.toggleIgnore true] else [])
      else (f, [])
    | KeyCode.esc =>
      ({ f with input := [] },
       if attached then
         [FilterEffect.toggleIgnore false, FilterEffect.refresh []]
       else [])
    | _ => (f, [])
  | InputMode.Editing =>
    if key.kind = KeyEventKind.press then
      match key.code with
      | KeyCode.enter =>
        if attached then
          ({ f with input_mode := InputMode.Normal },
           [FilterEffect.toggleIgnore false, FilterEffect.refresh f.input])
        else (f, [])
      | KeyCode.char c => (f.enter_char c, [])
      | KeyCode.backspace => (f.delete_char, [])
      | KeyCode.left => (f.move_cursor_left, [])
      | KeyCode.right => (f.move_cursor_right, [])
      | KeyCode.esc =>
        ({ f with input_mode := InputMode.Normal },
         if attached then [FilterEffect.toggleIgnore false] else [])
      | _ => (f, [])
    else (f, [])

/-- Modelled from the spec: `ServiceState` (`src/domain/service_state.rs` is
not among the given sources).  "Immutable value
`{load_state, active_state, sub_state, unit_file_state}`; always set as one
atomic group" — its constructor order matches
`ServiceState::new(load_state, active_state, sub_state, state)` as called
in `src/infrastructure/systemd_service_adapter.rs`. -/
structure ServiceState where
  load_state : String
  active_state : String
  sub_state : String
  unit_file_state : String
  deriving DecidableEq

/-- Modelled from the spec: the optional extended property bundle
(`src/domain/service_property.rs` is not among the given sources):
"execution commands, process ids, timestamps, resource limits". -/
structure ServiceProperty where
  exec_commands : List String
  process_ids : List Nat
  timestamps : List Nat
  resource_limits : List Nat
  deriving DecidableEq

/-- `Service` from `src/domain/service.rs`: name, description, state
snapshot, optional property bundle (`properties` starts as `None`). -/
structure Service where
  name : String
  description : String
  state : ServiceState
  properties : Option ServiceProperty
  deriving DecidableEq

namespace Service

/-- `Service::new`: `properties` starts out `None`. -/
def mkNew (name description : String) (state : ServiceState) : Service :=
  ⟨name, description, state, none⟩

end Service

/-- Modelled from the spec: `TableServices`
(`src/terminal/components/list.rs` is not among the given sources).  Per
§4.4 it owns the full and filtered service collections and the selection
cursor; per §4.3 entering filter edit mode "notifies the list view to
suppress navigation-key handling", which the filter does through
`toogle_ignore_key_events`, so the suppression flag is part of this
state. -/
structure TableServices where
  services : List Service
  filtered : List Service
  selected : Option Nat
  ignore_key_events : Bool
  deriving DecidableEq

/-- Modelled from the spec: substring test (§3 FilterPredicate: "applied as
a substring test against name and description; empty string matches
everything"). -/
def containsSub (p s : List Char) : Bool :=
  (List.range (s.length + 1)).any (fun i => (s.drop i).take p.length == p)

/-- Modelled from the spec: a service matches a predicate when the
predicate is a substring of its name or of its description (§4.4). -/
def matchesPredicate (p : List Char) (svc : Service) : Bool :=
  containsSub p svc.name.toList || containsSub p svc.description.toList

namespace TableServices

/-- Modelled from the spec: `toogle_ignore_key_events` sets the
navigation-suppression flag (filter.rs calls it with `true` on entering
Editing and `false` on submit/cancel/clear). -/
def toogle_ignore_key_events (t : TableServices) (b : Bool) : TableServices :=
  { t with ignore_key_events := b }

/-- Modelled from the spec: `get_selected()` "returns the currently
selected Service value, or none" (§4.4); the cursor indexes the filtered
list (§3). -/
def get_selected_service (t : TableServices) : Option Service :=
  match t.selected with
  | none => none
  | some i => t.filtered.get? i

/-- Modelled from the spec (§4.4 `refresh`): re-read the full set from the
repository (the repository response is the `listResult` argument; on
failure the previous set is retained), filter by substring over
name+description, and re-clamp the selection: keep the previously selected
service if its name is still in the new filtered set, else index 0, or
none if the filtered set is empty. -/
def refresh (t : TableServices) (listResult : Except String (List Service))
    (predicate : List Char) : TableServices :=
  match listResult with
  | Except.error _ => t
  | Except.ok svcs =>
    let filteredNew := svcs.filter (matchesPredicate predicate)
    let selectedNew :=
      match t.get_selected_service with
      | some prev =>
        match filteredNew.findIdx? (fun svc => svc.name = prev.name) with
        | some j => some j
        | none => if filteredNew.isEmpty then none else some 0
      | none => if filteredNew.isEmpty then none else some 0
    { services := svcs, filtered := filteredNew, selected := selectedNew,
      ignore_key_events := t.ignore_key_events }

/-- Modelled from the spec (§4.4 `move_selection`): adjust the cursor
within the bounds of the filtered set; page moves shift by 10, clamped. -/
def moveSelectionDown (t : TableServices) (n : Nat) : TableServices :=
  { t with
    selected :=
      match t.selected with
      | none => if t.filtered.isEmpty then none else some 0
      | some i => some (min (i + n) (t.filtered.length - 1)) }

/-- Modelled from the spec (§4.4 `move_selection`): upward moves saturate
at index 0. -/
def moveSelectionUp (t : TableServices) (n : Nat) : TableServices :=
  { t with
    selected :=
      match t.selected with
      | none => if t.filtered.isEmpty then none else some 0
      | some i => some (i - n) }

/-- Modelled from the spec: the list view's key handler.  When
`ignore_key_events` is set (filter Editing active) every key is ignored
(§3 invariant: "ServiceListView must not interpret navigation keys while
Editing is active"); otherwise Up/Down move the selection by one and
PageUp/PageDown by ten (§6 keyboard surface).  The service-action keys
(`s/x/r/e/d/u`) invoke the repository and are outside the claims settled
here; their effect on the view state goes through `refresh` and is not
modelled by this pure key handler. -/
def on_key_event (t : TableServices) (key : KeyEvent) : TableServices :=
  if t.ignore_key_events then t
  else
    match key.code with
    | KeyCode.up => t.moveSelectionUp 1
    | KeyCode.down => t.moveSelectionDown 1
    | KeyCode.pageUp => t.moveSelectionUp 10
    | KeyCode.pageDown => t.moveSelectionDown 10
    | _ => t

end TableServices

/-- The application actions used by `src/terminal/components/details.rs`
(`Actions::GoLog`, `Actions::GoList`).  The declaring module
(`src/terminal/app.rs`) is not among the given sources; the constructors
are exactly those the details component sends. -/
inductive DetailsActions where
  | GoLog
  | GoList
  deriving DecidableEq

/-- The events `src/terminal/components/details.rs` sends on its channel:
`AppEvent::Action(..)` and `AppEvent::Error(msg)`.  The declaring module
(`src/terminal/app.rs`) is not among the given sources; the constructors
are exactly those the details component sends. -/
inductive DetailsAppEvent where
  | action (a : DetailsActions)
  | error (msg : String)
  deriving DecidableEq

/-- The mutable state of `ServiceDetails` from
`src/terminal/components/details.rs`: the optionally shown service, the
`unit_file` text, and the `u16` scroll offset (modelled as a `Nat`; the
`+=` increments wrap at `2^16`).  The `sender` side of the channel is
modelled by returning the sent events, and the `usecase` collaborator by
passing its result to `fetch_unit_file` explicitly. -/
structure ServiceDetails where
  service : Option Service
  unit_file : String
  scroll : Nat
  deriving DecidableEq

namespace ServiceDetails

/-- `ServiceDetails::new` (service empty, unit text empty, scroll 0). -/
def mkNew : ServiceDetails := ⟨none, "", 0⟩

/-- `ServiceDetails::reset`: `self.service = None; self.scroll = 0;` — note
that `unit_file` is left as it is. -/
def reset (d : ServiceDetails) : ServiceDetails :=
  { d with service := none, scroll := 0 }

/-- `ServiceDetails::update`: stores the service to display. -/
def update (d : ServiceDetails) (svc : Service) : ServiceDetails :=
  { d with service := some svc }

/-- `ServiceDetails::fetch_unit_file`, with the `systemctl_cat` result of
the `ServicesManager` use case passed in as `catResult`: on `Ok` the text
is stored, on `Err` an `AppEvent::Error` is sent; nothing happens when no
service is shown. -/
def fetch_unit_file (d : ServiceDetails) (catResult : Except String String) :
    ServiceDetails × List DetailsAppEvent :=
  match d.service with
  | none => (d, [])
  | some _ =>
    match catResult with
    | Except.ok content => ({ d with unit_file := content }, [])
    | Except.error e => (d, [DetailsAppEvent.error e])

/-- What `ServiceDetails::render` paints: the paragraph with `unit_file` is
drawn only when a service is set; otherwise the area stays empty. -/
def displayedContent (d : ServiceDetails) : Option String :=
  match d.service with
  | none => none
  | some _ => some d.unit_file

end ServiceDetails

/-- `ServiceDetails::on_key_event` from
`src/terminal/components/details.rs`.  Right and Left call `reset` and send
`Action(GoLog)`; Up/PageUp saturate the scroll at 0; Down/PageDown use
unchecked `u16` addition (wrapping at `2^16`); `q` calls `reset` and then
`exit`, which sends `Action(GoList)`. -/
def serviceDetailsOnKey (d : ServiceDetails) (key : KeyEvent) :
    ServiceDetails × List DetailsAppEvent :=
  match key.code with
  | KeyCode.right => (d.reset, [DetailsAppEvent.action DetailsActions.GoLog])
  | KeyCode.left => (d.reset, [DetailsAppEvent.action DetailsActions.GoLog])
  | KeyCode.up => ({ d with scroll := d.scroll - 1 }, [])
  | KeyCode.down => ({ d with scroll := (d.scroll + 1) % 65536 }, [])
  | KeyCode.pageUp => ({ d with scroll := d.scroll - 10 }, [])
  | KeyCode.pageDown => ({ d with scroll := (d.scroll + 10) % 65536 }, [])
  | KeyCode.char c =>
    if c = 'q' then (d.reset, [DetailsAppEvent.action DetailsActions.GoList])
    else (d, [])
  | _ => (d, [])

/-- `Status` from `src/terminal/terminal.rs`. -/
inductive Status where
  | List
  | Details
  deriving DecidableEq

/-- `Actions` from `src/terminal/terminal.rs`. -/
inductive Actions where
  | RefreshLog
  | GoList
  deriving DecidableEq

/-- `AppEvent` from `src/terminal/terminal.rs`. -/
inductive AppEvent where
  | Key (key : KeyEvent)
  | Action (a : Actions)
  deriving DecidableEq

/-- Modelled from the spec: the terminal-side details view used by
`src/terminal/terminal.rs` (its module `src/terminal/details/details.rs` is
not among the given sources; terminal.rs calls `set_log_lines`,
`set_service_name`, `render`, `on_key_event` on it).  Per §4.5 it owns the
scroll offset and the displayed text for one service; per §4.6 scroll keys
adjust the offset (saturating at 0 on the low end) and Left/Right/`q` reset
the view and emit `Action GoList`. -/
structure DetailsT where
  log_lines : String
  service_name : String
  scroll : Nat
  deriving DecidableEq

namespace DetailsT

/-- Modelled from the spec: an empty details view. -/
def mkNew : DetailsT := ⟨"", "", 0⟩

/-- Modelled from the spec (§4.5 `reset`): clears displayed content and
scroll. -/
def reset (_d : DetailsT) : DetailsT := ⟨"", "", 0⟩

/-- Modelled from the spec (§4.5 `scroll`, §4.6 Details rows): Up/Down move
the offset by one and PageUp/PageDown by ten, saturating at 0 on the low
end; Left/Right/`q` reset the view and emit `Action GoList`; other keys do
nothing. -/
def on_key_event (d : DetailsT) (key : KeyEvent) :
    DetailsT × List AppEvent :=
  match key.code with
  | KeyCode.up => ({ d with scroll := d.scroll - 1 }, [])
  | KeyCode.down => ({ d with scroll := d.scroll + 1 }, [])
  | KeyCode.pageUp => ({ d with scroll := d.scroll - 10 }, [])
  | KeyCode.pageDown => ({ d with scroll := d.scroll + 10 }, [])
  | KeyCode.left => (d.reset, [AppEvent.Action Actions.GoList])
  | KeyCode.right => (d.reset, [AppEvent.Action Actions.GoList])
  | KeyCode.char c =>
    if c = 'q' then (d.reset, [AppEvent.Action Actions.GoList])
    else (d, [])
  | _ => (d, [])

end DetailsT

/-- The state owned by `App` in `src/terminal/terminal.rs`: the `running`
flag, the current `status`, and the three child views (shared behind
`Rc<RefCell<..>>` in Rust; single-owner fields here, which is faithful
because the controller loop is the only mutator). -/
structure AppState where
  running : Bool
  status : Status
  table : TableServices
  filter : FilterState
  details : DetailsT
  deriving DecidableEq

/-- The external collaborators the controller calls synchronously:
`ServicesManager::get_log` (used by `App::log`) and the repository list
used by the list view's refresh.  Modelled as fixed response functions so
every controller step is a pure function of state, event and oracle. -/
structure Oracle where
  getLog : String → Except String String
  listServices : Except String (List Service)

/-- `App::log` from `src/terminal/terminal.rs`: take the selected service;
if there is none, nothing happens.  Otherwise call
`ServicesManager::get_log`; only on `Ok` are the details populated
(`set_log_lines`, `set_service_name`) and the status set to `Details` — an
`Err` is silently discarded by the `if let Ok(log)` and the state is left
unchanged, with no notification of any kind. -/
def appLog (oracle : Oracle) (s : AppState) : AppState :=
  match s.table.get_selected_service with
  | none => s
  | some svc =>
    match oracle.getLog svc.name with
    | Except.ok log =>
      { s with
        details :=
          { s.details with
            log_lines := log
            service_name := svc.name }
        status := Status.Details }
    | Except.error _ => s

/-- `App::on_key_event` from `src/terminal/terminal.rs`: Ctrl+`c`/`C`
clears `running`; `v` (with any modifiers) calls `App::log` when the filter
is in Normal mode; every other key is ignored here. -/
def appOnKey (oracle : Oracle) (s : AppState) (key : KeyEvent) : AppState :=
  if key.modifiers = KeyModifiers.control ∧
      (key.code = KeyCode.char 'c' ∨ key.code = KeyCode.char 'C') then
    { s with running := false }
  else
    match key.code with
    | KeyCode.char c =>
      if c = 'v' then
        if s.filter.input_mode = InputMode.Normal then appLog oracle s else s
      else s
    | _ => s

/-- Apply one filter effect to the table: `toogle_ignore_key_events` or
`refresh` (the latter with the repository response from the oracle). -/
def applyFilterEffect (oracle : Oracle) (t : TableServices)
    (eff : FilterEffect) : TableServices :=
  match eff with
  | FilterEffect.toggleIgnore b => t.toogle_ignore_key_events b
  | FilterEffect.refresh p => t.refresh oracle.listServices p

/-- Apply the filter's table calls in order. -/
def applyFilterEffects (oracle : Oracle) (t : TableServices)
    (effs : List FilterEffect) : TableServices :=
  effs.foldl (applyFilterEffect oracle) t

/-- One dispatch of `App::run`'s `match self.event_rx.recv()?`: returns the
new state and the events the handlers sent onto the bus during handling.
A key event is routed by the status current at dispatch time: in `Details`
first `App::on_key_event`, then the details view; in `List` first
`App::on_key_event`, then the table, then the filter (whose table calls
mutate the shared table).  `Action(GoList)` sets the status to `List`;
`Action(RefreshLog)` re-runs `App::log` when in `Details`. -/
def handleEvent (oracle : Oracle) (s : AppState) (e : AppEvent) :
    AppState × List AppEvent :=
  match e with
  | AppEvent.Key key =>
    match s.status with
    | Status.Details =>
      let s1 := appOnKey oracle s key
      let dr := s1.details.on_key_event key
      ({ s1 with details := dr.1 }, dr.2)
    | Status.List =>
      let s1 := appOnKey oracle s key
      let t2 := s1.table.on_key_event key
      let fr := filterOnKey s1.filter true key
      ({ s1 with
         table := applyFilterEffects oracle t2 fr.2
         filter := fr.1 }, [])
  | AppEvent.Action Actions.GoList => ({ s with status := Status.List }, [])
  | AppEvent.Action Actions.RefreshLog =>
    (if s.status = Status.Details then appLog oracle s else s, [])

/-- Observable steps of the `App::run` loop: painting the active view, and
returning from the blocking `recv`. -/
inductive Obs where
  | paint (st : Status)
  | recvStep
  deriving DecidableEq

/-- The `App::run` loop of `src/terminal/terminal.rs` as a trace: while
`running`, first draw the view selected by the current status, then block
on `recv`; when an event arrives, handle it (events the handlers send go
to the back of the queue, after the already-pending ones — the channel is
FIFO) and loop.  An empty queue means no further event ever arrives, so the
loop paints once more and then blocks forever; `fuel` bounds the number of
iterations unrolled. -/
def runTrace (oracle : Oracle) : Nat → AppState → List AppEvent → List Obs
  | 0, _, _ => []
  | _ + 1, s, [] => if s.running then [Obs.paint s.status] else []
  | n + 1, s, e :: rest =>
    if s.running then
      Obs.paint s.status :: Obs.recvStep ::
        (let r := handleEvent oracle s e
         runTrace oracle n r.1 (rest ++ r.2))
    else []

/-- `true` exactly when a trace consists of blocks of one paint followed by
one receive, with optionally one final paint (the loop blocked or ran out
of fuel). -/
def paintThenRecv : List Obs → Bool
  | [] => true
  | [Obs.paint _] => true
  | Obs.paint _ :: Obs.recvStep :: rest => paintThenRecv rest
  | _ => false

/-- The editor operations quantified over in the cursor-invariant claim:
`insert_char`, `delete_char`, `move_cursor` left/right. -/
inductive FilterOp where
  | insert (c : Char)
  | delete
  | left
  | right
  deriving DecidableEq

/-- Apply one editor operation. -/
def applyFilterOp (f : FilterState) (op : FilterOp) : FilterState :=
  match op with
  | FilterOp.insert c => f.enter_char c
  | FilterOp.delete => f.delete_char
  | FilterOp.left => f.move_cursor_left
  | FilterOp.right => f.move_cursor_right

/-- Apply a sequence of editor operations, first one first. -/
def applyFilterOps (ops : List FilterOp) (f : FilterState) : FilterState :=
  ops.foldl applyFilterOp f

/-- The cursor invariant: the cursor is a position of the input, between 0
and its codepoint length (the lower bound is the type). -/
def cursorInBounds (f : FilterState) : Prop :=
  f.character_index ≤ f.input.length

theorem clamp_cursor_le (f : FilterState) (n : Nat) :
    f.clamp_cursor n ≤ f.input.length :=
  Nat.min_le_right n f.input.length

theorem applyFilterOp_cursorInBounds (f : FilterState) (op : FilterOp)
    (h : cursorInBounds f) : cursorInBounds (applyFilterOp f op) := by
  cases op with
  | insert c =>
    exact clamp_cursor_le _ _
  | delete =>
    unfold applyFilterOp FilterState.delete_char
    by_cases h0 : f.character_index ≠ 0
    · rw [if_pos h0]
      exact clamp_cursor_le _ _
    · rw [if_neg h0]
      exact h
  | left =>
    exact clamp_cursor_le _ _
  | right =>
    exact clamp_cursor_le _ _

theorem applyFilterOps_cursorInBounds (ops : List FilterOp)
    (f : FilterState) (h : cursorInBounds f) :
    cursorInBounds (applyFilterOps ops f) := by
  induction ops generalizing f with
  | nil => exact h
  | cons op rest ih =>
    exact ih (applyFilterOp f op) (applyFilterOp_cursorInBounds f op h)

/-- C1: For every sequence of FilterEditor operations (insert_char,
delete_char, move_cursor left/right), starting from the empty input with
cursor 0, the cursor index stays within [0, codepoint length of the
current input] after every step — i.e. at every prefix of the sequence. -/
theorem c1_cursor_stays_in_bounds (ops : List FilterOp) (n : Nat) :
    cursorInBounds (applyFilterOps (ops.take n) FilterState.new) :=
  applyFilterOps_cursorInBounds (ops.take n) FilterState.new
    (Nat.le_refl 0)

/-- A plain press of Backspace. -/
def backspaceKey : KeyEvent :=
  ⟨KeyCode.backspace, KeyModifiers.noMods, KeyEventKind.press⟩

/-- A plain press of Enter. -/
def enterKey : KeyEvent :=
  ⟨KeyCode.enter, KeyModifiers.noMods, KeyEventKind.press⟩

/-- A plain press of Esc. -/
def escKey : KeyEvent :=
  ⟨KeyCode.esc, KeyModifiers.noMods, KeyEventKind.press⟩

/-- A plain press of the character `i`. -/
def iKey : KeyEvent :=
  ⟨KeyCode.char 'i', KeyModifiers.noMods, KeyEventKind.press⟩

/-- A plain press of the character `v`. -/
def vKey : KeyEvent :=
  ⟨KeyCode.char 'v', KeyModifiers.noMods, KeyEventKind.press⟩

/-- A plain press of the character `q`. -/
def qKey : KeyEvent :=
  ⟨KeyCode.char 'q', KeyModifiers.noMods, KeyEventKind.press⟩

/-- A plain press of the Left arrow. -/
def leftKey : KeyEvent :=
  ⟨KeyCode.left, KeyModifiers.noMods, KeyEventKind.press⟩

/-- A plain press of the Right arrow. -/
def rightKey : KeyEvent :=
  ⟨KeyCode.right, KeyModifiers.noMods, KeyEventKind.press⟩

/-- A plain press of the Up arrow. -/
def upKey : KeyEvent :=
  ⟨KeyCode.up, KeyModifiers.noMods, KeyEventKind.press⟩

/-- A plain press of the Down arrow. -/
def downKey : KeyEvent :=
  ⟨KeyCode.down, KeyModifiers.noMods, KeyEventKind.press⟩

/-- A plain press of PageUp. -/
def pageUpKey : KeyEvent :=
  ⟨KeyCode.pageUp, KeyModifiers.noMods, KeyEventKind.press⟩

/-- A plain press of PageDown. -/
def pageDownKey : KeyEvent :=
  ⟨KeyCode.pageDown, KeyModifiers.noMods, KeyEventKind.press⟩

/-- C6: `delete_char` in Editing mode (a Backspace press) is a no-op —
input, cursor, mode all unchanged, nothing sent to the table — when the
cursor is at position 0; otherwise it removes exactly the codepoint
immediately left of the cursor and moves the cursor left by one (the Nat
cursor can never go below 0). -/
theorem c6_delete_char_characterisation (f : FilterState) (attached : Bool)
    (hmode : f.input_mode = InputMode.Editing)
    (hlen : f.character_index ≤ f.input.length) :
    (f.character_index = 0 →
      filterOnKey f attached backspaceKey = (f, [])) ∧
    (f.character_index ≠ 0 →
      (filterOnKey f attached backspaceKey).1.input =
        f.input.eraseIdx (f.character_index - 1) ∧
      (filterOnKey f attached backspaceKey).1.character_index =
        f.character_index - 1 ∧
      (filterOnKey f attached backspaceKey).2 = []) := by
  obtain ⟨input, ci, mode⟩ := f
  simp only at hmode hlen
  subst hmode
  constructor
  · intro h0
    simp only at h0
    subst h0
    simp [filterOnKey, backspaceKey, FilterState.delete_char]
  · intro h0
    simp only at h0
    have h1 : 1 ≤ ci := Nat.one_le_iff_ne_zero.mpr h0
    have hstep : filterOnKey ⟨input, ci, InputMode.Editing⟩ attached
        backspaceKey =
        (FilterState.delete_char ⟨input, ci, InputMode.Editing⟩, []) := rfl
    have hdel : FilterState.delete_char ⟨input, ci, InputMode.Editing⟩ =
        FilterState.move_cursor_left
          ⟨input.take (ci - 1) ++ input.drop ci, ci, InputMode.Editing⟩ := by
      simp [FilterState.delete_char, h0]
    have htake : input.take (ci - 1) ++ input.drop ci =
        input.eraseIdx (ci - 1) := by
      rw [List.eraseIdx_eq_take_drop_succ, Nat.sub_add_cancel h1]
    have hlength : (input.take (ci - 1) ++ input.drop ci).length =
        input.length - 1 := by
      rw [List.length_append, List.length_take, List.length_drop]
      omega
    refine ⟨?_, ?_, ?_⟩
    · rw [hstep]
      simp only [hdel, FilterState.move_cursor_left]
      exact htake
    · rw [hstep]
      simp only [hdel, FilterState.move_cursor_left,
        FilterState.clamp_cursor, hlength]
      omega
    · rw [hstep]

/-- C6 witness: deleting at cursor 2 in `"ab"` removes the codepoint left
of the cursor and moves the cursor to 1. -/
theorem c6_witness :
    (filterOnKey ⟨['a', 'b'], 2, InputMode.Editing⟩ true
        backspaceKey).1.input = (['a', 'b'] : List Char).eraseIdx 1 ∧
    (filterOnKey ⟨['a', 'b'], 2, InputMode.Editing⟩ true
        backspaceKey).1.character_index = 1 := by
  have h := c6_delete_char_characterisation
    ⟨['a', 'b'], 2, InputMode.Editing⟩ true rfl (by decide)
  have h2 := h.2 (by decide)
  exact ⟨h2.1, h2.2.1⟩

/-- C7: pressing Esc while the filter is in Normal mode (with the list view
attached, as `App::init` always does) clears the input to the empty string
and immediately calls the list view's refresh with the new, empty
predicate (after re-enabling its key handling); the mode stays Normal. -/
theorem c7_normal_esc_clears_and_refreshes (f : FilterState)
    (hmode : f.input_mode = InputMode.Normal) :
    filterOnKey f true escKey =
      ({ f with input := [] },
       [FilterEffect.toggleIgnore false, FilterEffect.refresh []]) := by
  obtain ⟨input, ci, mode⟩ := f
  simp only at hmode
  subst hmode
  rfl

/-- C7 witness: Esc in Normal mode on the concrete input `"ab"`. -/
theorem c7_witness :
    filterOnKey ⟨['a', 'b'], 1, InputMode.Normal⟩ true escKey =
      (⟨[], 1, InputMode.Normal⟩,
       [FilterEffect.toggleIgnore false, FilterEffect.refresh []]) :=
  c7_normal_esc_clears_and_refreshes ⟨['a', 'b'], 1, InputMode.Normal⟩ rfl

/-- C10: pressing Enter in Editing mode with no list view attached
(`table_service` is `None`) changes nothing — the editor stays in Editing
mode with the same input, and no toggle or refresh call is made; with a
list view attached the same press commits: mode goes to Normal, key
handling is re-enabled and refresh is called with the current input. -/
theorem c10_submit_requires_table (f : FilterState)
    (hmode : f.input_mode = InputMode.Editing) :
    filterOnKey f false enterKey = (f, []) ∧
    filterOnKey f true enterKey =
      ({ f with input_mode := InputMode.Normal },
       [FilterEffect.toggleIgnore false, FilterEffect.refresh f.input]) := by
  obtain ⟨input, ci, mode⟩ := f
  simp only at hmode
  subst hmode
  exact ⟨rfl, rfl⟩

/-- C10 witness: Enter on the concrete Editing state with input `"ab"`. -/
theorem c10_witness :
    filterOnKey ⟨['a', 'b'], 1, InputMode.Editing⟩ false enterKey =
      (⟨['a', 'b'], 1, InputMode.Editing⟩, []) :=
  (c10_submit_requires_table ⟨['a', 'b'], 1, InputMode.Editing⟩ rfl).1

/-- C8: `ServiceDetails` scrolling — Up/Down move the offset by 1 and
PageUp/PageDown by 10; the low end saturates at 0 (Up/PageUp from offset 0
leave it at 0, which is an instance of Nat subtraction), and the high end
has no bound beyond the unchecked 16-bit addition, i.e. Down/PageDown add
modulo `2^16` for every starting offset. -/
theorem c8_scroll_characterisation (d : ServiceDetails) :
    (serviceDetailsOnKey d upKey).1.scroll = d.scroll - 1 ∧
    (serviceDetailsOnKey d downKey).1.scroll = (d.scroll + 1) % 65536 ∧
    (serviceDetailsOnKey d pageUpKey).1.scroll = d.scroll - 10 ∧
    (serviceDetailsOnKey d pageDownKey).1.scroll = (d.scroll + 10) % 65536 ∧
    (serviceDetailsOnKey { d with scroll := 0 } upKey).1.scroll = 0 ∧
    (serviceDetailsOnKey { d with scroll := 0 } pageUpKey).1.scroll = 0 :=
  ⟨rfl, rfl, rfl, rfl, rfl, rfl⟩

/-- C5: `reset()` clears what the details view displays (render paints
nothing once `service` is `None`) and sets the scroll offset back to 0;
consequently, showing a service with fetched content and then pressing the
back key `q` leaves the details view empty/reset, with `GoList` emitted
for the controller to return to the List state. -/
theorem c5_reset_clears_details (d : ServiceDetails) (svc : Service)
    (content : String) :
    ((d.reset).scroll = 0 ∧ (d.reset).displayedContent = none) ∧
    (((d.update svc).fetch_unit_file
        (Except.ok content)).1.displayedContent = some content ∧
      (serviceDetailsOnKey ((d.update svc).fetch_unit_file
        (Except.ok content)).1 qKey).1.scroll = 0 ∧
      (serviceDetailsOnKey ((d.update svc).fetch_unit_file
        (Except.ok content)).1 qKey).1.displayedContent = none ∧
      (serviceDetailsOnKey ((d.update svc).fetch_unit_file
        (Except.ok content)).1 qKey).2 =
        [DetailsAppEvent.action DetailsActions.GoList]) :=
  ⟨⟨rfl, rfl⟩, rfl, rfl, rfl, rfl⟩

/-- A concrete service value used by closed counterexamples and
witnesses. -/
def svc0 : Service :=
  ⟨"sshd.service", "OpenSSH server daemon",
   ⟨"loaded", "active", "running", "enabled"⟩, none⟩

/-- C3 counterexample: in the details view, a Left key press does not emit
`GoList` — the action actually sent is `GoLog` (`q` is the key that emits
`GoList`). -/
theorem c3_counterexample :
    (serviceDetailsOnKey ⟨some svc0, "unit text", 5⟩ leftKey).2 =
      [DetailsAppEvent.action DetailsActions.GoLog] ∧
    (serviceDetailsOnKey ⟨some svc0, "unit text", 5⟩ leftKey).2 ≠
      [DetailsAppEvent.action DetailsActions.GoList] := by
  exact ⟨rfl, by decide⟩

/-- C3 amended: a Left or Right key press resets the DetailsView and emits
the action `GoLog` (not `GoList`); it is the processing of a `GoList`
action (emitted by the back key `q`) that puts the controller in the List
state, with nothing further emitted. -/
theorem c3_amended_left_right_emit_golog (d : ServiceDetails)
    (oracle : Oracle) (s : AppState) :
    serviceDetailsOnKey d leftKey =
      (d.reset, [DetailsAppEvent.action DetailsActions.GoLog]) ∧
    serviceDetailsOnKey d rightKey =
      (d.reset, [DetailsAppEvent.action DetailsActions.GoLog]) ∧
    (handleEvent oracle s (AppEvent.Action Actions.GoList)).1.status =
      Status.List ∧
    (handleEvent oracle s (AppEvent.Action Actions.GoList)).2 = [] :=
  ⟨rfl, rfl, rfl, rfl⟩

/-- A concrete list view: one service, selected, keys not suppressed. -/
def table0 : TableServices := ⟨[svc0], [svc0], some 0, false⟩

/-- A concrete application state in List status. -/
def appState0 : AppState :=
  ⟨true, Status.List, table0, FilterState.new, DetailsT.mkNew⟩

/-- A concrete oracle whose backend is unreachable. -/
def oracle0 : Oracle :=
  ⟨fun _ => Except.error "backend offline", Except.error "backend offline"⟩

/-- A concrete oracle whose backend answers every call. -/
def oracleOk : Oracle :=
  ⟨fun _ => Except.ok "log text", Except.ok [svc0]⟩

/-- C2: in List status with the filter in Normal mode, pressing `i` puts
the filter in Editing mode, tells the list view to ignore key events and
stays in List status; a subsequent Down press then leaves the list
selection unchanged; pressing Esc (cancel) instead of Down re-enables the
list view's key handling. -/
theorem c2_editing_suppresses_navigation (oracle : Oracle) (s : AppState)
    (h1 : s.status = Status.List)
    (h2 : s.filter.input_mode = InputMode.Normal) :
    (handleEvent oracle s (AppEvent.Key iKey)).1.filter.input_mode =
      InputMode.Editing ∧
    (handleEvent oracle s (AppEvent.Key iKey)).1.table.ignore_key_events =
      true ∧
    (handleEvent oracle s (AppEvent.Key iKey)).1.status = Status.List ∧
    (handleEvent oracle ((handleEvent oracle s (AppEvent.Key iKey)).1)
      (AppEvent.Key downKey)).1.table.selected = s.table.selected ∧
    (handleEvent oracle ((handleEvent oracle s (AppEvent.Key iKey)).1)
      (AppEvent.Key escKey)).1.table.ignore_key_events = false := by
  obtain ⟨running, status, table, filter, details⟩ := s
  obtain ⟨input, ci, mode⟩ := filter
  simp only at h1 h2
  subst h1
  subst h2
  refine ⟨?_, ?_, ?_, ?_, ?_⟩ <;>
    simp [handleEvent, appOnKey, iKey, downKey, escKey, filterOnKey,
      applyFilterEffects, applyFilterEffect, TableServices.on_key_event,
      TableServices.toogle_ignore_key_events]

/-- C2 witness: the sequence `i`, Down on a concrete one-service state. -/
theorem c2_witness :
    (handleEvent oracle0 appState0 (AppEvent.Key iKey)).1.filter.input_mode =
      InputMode.Editing ∧
    (handleEvent oracle0 appState0 (AppEvent.Key iKey)).1.table.ignore_key_events =
      true ∧
    (handleEvent oracle0 appState0 (AppEvent.Key iKey)).1.status = Status.List ∧
    (handleEvent oracle0 ((handleEvent oracle0 appState0 (AppEvent.Key iKey)).1)
      (AppEvent.Key downKey)).1.table.selected = appState0.table.selected ∧
    (handleEvent oracle0 ((handleEvent oracle0 appState0 (AppEvent.Key iKey)).1)
      (AppEvent.Key escKey)).1.table.ignore_key_events = false :=
  c2_editing_suppresses_navigation oracle0 appState0 rfl rfl

/-- C4 counterexample: in List status, with a service selected and the
filter in Normal mode, pressing `v` while the log fetch fails leaves the
state exactly as it was and emits nothing at all — no error notice of any
kind is surfaced (the `if let Ok(log)` in `App::log` silently discards the
error), contradicting the claim that a failure surfaces an error notice. -/
theorem c4_counterexample :
    handleEvent oracle0 appState0 (AppEvent.Key vKey) = (appState0, []) ∧
    appState0.status = Status.List := by
  exact ⟨rfl, rfl⟩

/-- C4 amended: in List status with the filter not in Editing mode,
pressing `v` fetches the selected service's log and on success populates
the details view and transitions to Details; on failure, or with no
selection, the controller stays in List with the state unchanged and the
failure is silently discarded — no error notice is emitted.  The handler
is a total function, so the failure never unwinds through the
controller. -/
theorem c4_view_logs_behaviour (s : AppState) (oracle : Oracle)
    (svc : Service) (l msg : String)
    (h1 : s.status = Status.List)
    (h2 : s.filter.input_mode = InputMode.Normal) :
    (s.table.get_selected_service = some svc →
      oracle.getLog svc.name = Except.ok l →
        (handleEvent oracle s (AppEvent.Key vKey)).1.status =
          Status.Details ∧
        (handleEvent oracle s (AppEvent.Key vKey)).1.details.log_lines =
          l ∧
        (handleEvent oracle s (AppEvent.Key vKey)).1.details.service_name =
          svc.name ∧
        (handleEvent oracle s (AppEvent.Key vKey)).2 = []) ∧
    (s.table.get_selected_service = some svc →
      oracle.getLog svc.name = Except.error msg →
        handleEvent oracle s (AppEvent.Key vKey) = (s, [])) ∧
    (s.table.get_selected_service = none →
      handleEvent oracle s (AppEvent.Key vKey) = (s, [])) := by
  obtain ⟨running, status, table, filter, details⟩ := s
  obtain ⟨input, ci, mode⟩ := filter
  simp only at h1 h2
  subst h1
  subst h2
  refine ⟨?_, ?_, ?_⟩
  · intro hsel hlog
    refine ⟨?_, ?_, ?_, ?_⟩ <;>
      simp [handleEvent, appOnKey, vKey, appLog, hsel, hlog, filterOnKey,
        applyFilterEffects, TableServices.on_key_event]
  · intro hsel hlog
    simp [handleEvent, appOnKey, vKey, appLog, hsel, hlog, filterOnKey,
      applyFilterEffects, TableServices.on_key_event]
  · intro hsel
    simp [handleEvent, appOnKey, vKey, appLog, hsel, filterOnKey,
      applyFilterEffects, TableServices.on_key_event]

/-- C4 witness: on the concrete state, a successful fetch shows the log
and moves to Details. -/
theorem c4_witness :
    (handleEvent oracleOk appState0 (AppEvent.Key vKey)).1.status =
      Status.Details ∧
    (handleEvent oracleOk appState0 (AppEvent.Key vKey)).1.details.log_lines =
      "log text" ∧
    (handleEvent oracleOk appState0 (AppEvent.Key vKey)).1.details.service_name =
      svc0.name ∧
    (handleEvent oracleOk appState0 (AppEvent.Key vKey)).2 = [] :=
  (c4_view_logs_behaviour appState0 oracleOk svc0 "log text" "unused"
    rfl rfl).1 rfl rfl

theorem paintThenRecv_runTrace (oracle : Oracle) (fuel : Nat)
    (s : AppState) (q : List AppEvent) :
    paintThenRecv (runTrace oracle fuel s q) = true := by
  induction fuel generalizing s q with
  | zero => rfl
  | succ n ih =>
    cases q with
    | nil =>
      by_cases hr : s.running <;> simp [runTrace, hr, paintThenRecv]
    | cons e rest =>
      by_cases hr : s.running
      · simp only [runTrace, hr, if_true]
        exact ih _ _
      · simp [runTrace, hr, paintThenRecv]

/-- C9: every trace of the controller loop is an alternation of one paint
followed by one blocking receive (with at most one trailing paint when the
queue runs dry or the fuel runs out), and while `running` each iteration's
first step is a paint of the view selected by the current status — so the
screen reflects the state produced by the previous event before the loop
waits for the next one. -/
theorem c9_one_paint_per_iteration (oracle : Oracle) (fuel : Nat)
    (s : AppState) (q : List AppEvent) :
    paintThenRecv (runTrace oracle fuel s q) = true ∧
    (s.running = true →
      (runTrace oracle (fuel + 1) s q).head? = some (Obs.paint s.status)) := by
  refine ⟨paintThenRecv_runTrace oracle fuel s q, ?_⟩
  intro hr
  cases q with
  | nil => simp [runTrace, hr]
  | cons e rest => simp [runTrace, hr]

/-- C9 witness: the loop on a concrete state paints the List view first. -/
theorem c9_witness :
    paintThenRecv (runTrace oracle0 3 appState0 [AppEvent.Key vKey]) =
      true ∧
    (runTrace oracle0 (3 + 1) appState0 [AppEvent.Key vKey]).head? =
      some (Obs.paint appState0.status) :=
  ⟨(c9_one_paint_per_iteration oracle0 3 appState0 [AppEvent.Key vKey]).1,
   (c9_one_paint_per_iteration oracle0 3 appState0 [AppEvent.Key vKey]).2
     rfl⟩
